import Mathlib

/-!
Verification of the aws-infra-copilot tool suite: a shallow embedding of the
per-resource query tools (IAM, ECS, S3, Lambda) and proofs of the spec's
testable properties.  Provider API responses are modelled as explicit data
passed into each tool body; fallible provider calls are modelled with
`Except String`; Python `datetime` values are modelled as POSIX seconds
(`Int`); Python float division by powers of two followed by `:.2f` formatting
is modelled as exact rational arithmetic with round-half-even (exact for any
byte count below 2^53, since division by a power of two is exact in IEEE
doubles).
-/

namespace AwsCopilot

/-- A single-quote character as a string, used to build the not-found messages
that the source writes with f-string quoting. -/
def sq : String := String.singleton (Char.ofNat 39)

/-- Python `str.split(sep)` for a one-character separator, over character
lists: split at every occurrence of `sep` (consecutive separators produce
empty segments); the result is always non-empty. -/
def splitChar (sep : Char) : List Char → List (List Char)
  | [] => [[]]
  | c :: cs =>
    match splitChar sep cs with
    | [] => [[]]
    | seg :: rest => if c == sep then [] :: seg :: rest else (c :: seg) :: rest

/-- Python `s.split("/")[-1]`: the last segment of the split (the split list
is never empty, so the Python index `[-1]` never fails). -/
def lastSegment (s : String) : String := String.mk ((splitChar '/' s.toList).getLastD [])

/-- Python `str.lower()` (ASCII case folding, matching `Char.toLower` on the
ASCII range the AWS identifiers live in). -/
def strLower (s : String) : String := String.mk (s.toList.map Char.toLower)

/-- Does the second character list start with the first one?  Helper for the
model of the Python substring operator `in`. -/
def startsWithL : List Char → List Char → Bool
  | [], _ => true
  | _ :: _, [] => false
  | c :: cs, d :: ds => c == d && startsWithL cs ds

/-- Is the first character list a contiguous sublist of the second? -/
def containsSubL (needle : List Char) : List Char → Bool
  | [] => startsWithL needle []
  | d :: ds => startsWithL needle (d :: ds) || containsSubL needle ds

/-- The Python string containment test `needle in hay`. -/
def pyIn (needle hay : String) : Bool := containsSubL needle.toList hay.toList

/-- Two-digit zero-padded rendering of a fractional part below 100. -/
def pad2 (fp : Nat) : String := if fp < 10 then "0" ++ toString fp else toString fp

/-- Round-half-even of `num * 100 / den` (the scaled-by-100 value of the
exact quotient `num / den`, rounded to the nearest integer with ties to
even). -/
def fix2Scaled (num den : Nat) : Nat :=
  let scaled := num * 100
  let q := scaled / den
  let r := scaled % den
  if 2 * r < den then q
  else if den < 2 * r then q + 1
  else if q % 2 = 0 then q else q + 1

/-- Python `f-string` fixed formatting `x:.2f` of the exact quotient
`num / den`, where `den` is a power of two and the quotient is exactly
representable: round-half-even of `num * 100 / den`, rendered with exactly two
digits after the decimal point. -/
def fmtFix2 (num den : Nat) : String :=
  toString (fix2Scaled num den / 100) ++ "." ++ pad2 (fix2Scaled num den % 100)

/-- `src/tools/s3.py`: `_human_readable_size` — convert a byte count to a
human-readable string using binary (1024-based) thresholds; the sub-1024
branch prints the integer with no decimals, higher branches format the scaled
value at two decimal places. -/
def human_readable_size (size_bytes : Nat) : String :=
  if size_bytes < 1024 then toString size_bytes ++ " B"
  else if size_bytes < 1024 ^ 2 then fmtFix2 size_bytes 1024 ++ " KB"
  else if size_bytes < 1024 ^ 3 then fmtFix2 size_bytes (1024 ^ 2) ++ " MB"
  else if size_bytes < 1024 ^ 4 then fmtFix2 size_bytes (1024 ^ 3) ++ " GB"
  else fmtFix2 size_bytes (1024 ^ 4) ++ " TB"

/-! ## IAM: stale credentials (`src/tools/iam.py`, `list_users_with_stale_credentials`) -/

/-- One entry of `AccessKeyMetadata` as returned by `iam.list_access_keys`.
`createDate` is the key's `CreateDate` in POSIX seconds (UTC). -/
structure AccessKeyMeta where
  accessKeyId : String
  createDate : Int
  status : String
  deriving DecidableEq

/-- One IAM user together with the access-key metadata the tool fetches for
it via `iam.list_access_keys(UserName=...)`. -/
structure IamUser where
  userName : String
  accessKeys : List AccessKeyMeta
  deriving DecidableEq

/-- Python `(now - create).days` on timezone-aware datetimes: the whole-day
floor of the elapsed time (`timedelta.days` floors, also for negative
deltas), with both instants in POSIX seconds. -/
def timedeltaDays (now create : Int) : Int := Int.fdiv (now - create) 86400

/-- The shaped record appended for each stale key (`created` kept in POSIX
seconds; the source stores `CreateDate.isoformat()`). -/
structure StaleEntry where
  username : String
  access_key_id : String
  key_age_days : Int
  status : String
  created : Int
  deriving DecidableEq

/-- The stale record the loop body builds from a user and one of its keys. -/
def mkStaleEntry (now : Int) (u : IamUser) (k : AccessKeyMeta) : StaleEntry :=
  { username := u.userName
    access_key_id := k.accessKeyId
    key_age_days := timedeltaDays now k.createDate
    status := k.status
    created := k.createDate }

/-- Success envelope of `list_users_with_stale_credentials`. -/
structure StaleResult where
  threshold_days : Int
  stale_credential_count : Nat
  users : List StaleEntry
  deriving DecidableEq

/-- `src/tools/iam.py`: `list_users_with_stale_credentials` — for every user
and every one of its access keys, compute `key_age = (now - CreateDate).days`
and collect a shaped record exactly when `key_age > days`.  The nested
`for` loops appending into `stale_users` are rendered as a bind/filterMap. -/
def list_users_with_stale_credentials (now : Int) (users : List IamUser)
    (days : Int := 90) : StaleResult :=
  let stale_users := users.flatMap fun u =>
    u.accessKeys.filterMap fun k =>
      if timedeltaDays now k.createDate > days then some (mkStaleEntry now u k) else none
  { threshold_days := days
    stale_credential_count := stale_users.length
    users := stale_users }

/-! ## ECS: batched describers (`src/tools/ecs.py`) -/

/-- The successive slices `l[i : i + B]` taken by the Python loop
`for i in range(0, len(l), B)`, driven by a fuel argument (each step consumes
at least one element when `B ≥ 1`, so fuel `l.length` suffices). -/
def sliceChunks (B : Nat) : Nat → List α → List (List α)
  | _, [] => []
  | 0, _ :: _ => []
  | fuel + 1, x :: xs => List.take B (x :: xs) :: sliceChunks B fuel (List.drop B (x :: xs))

/-- The batches `l[0:B], l[B:2B], ...` issued by the chunking loop. -/
def pyChunks (B : Nat) (l : List α) : List (List α) := sliceChunks B l.length l

/-- A raw service record of `ecs.describe_services` (fields the tool reads;
`launchType` is fetched with `.get`, so it may be absent). -/
structure EcsServiceRaw where
  serviceName : String
  status : String
  desiredCount : Nat
  runningCount : Nat
  pendingCount : Nat
  launchType : Option String
  taskDefinition : String
  deriving DecidableEq

/-- The shaped service summary built by `list_ecs_services`. -/
structure SvcSummary where
  name : String
  status : String
  desired_count : Nat
  running_count : Nat
  pending_count : Nat
  launch_type : String
  task_definition : String
  deriving DecidableEq

/-- The dict literal appended per service in `list_ecs_services`. -/
def shapeEcsService (s : EcsServiceRaw) : SvcSummary :=
  { name := s.serviceName
    status := s.status
    desired_count := s.desiredCount
    running_count := s.runningCount
    pending_count := s.pendingCount
    launch_type := s.launchType.getD "EC2"
    task_definition := lastSegment s.taskDefinition }

/-- Success envelope of `list_ecs_services`. -/
structure EcsServicesOut where
  cluster : String
  service_count : Nat
  services : List SvcSummary
  deriving DecidableEq

/-- `src/tools/ecs.py`: `list_ecs_services` — after collecting `service_arns`,
if the list is empty return the empty envelope without any describe call;
otherwise loop `for i in range(0, len(service_arns), 10)` taking the slice
`service_arns[i : i + 10]`, call `describe_services` on it, and append the
shaped records in response order.  The second component is the log of
describe calls issued (one entry per loop iteration, the batch passed). -/
def list_ecs_services (cluster_name : String) (service_arns : List String)
    (describe_services : List String → List EcsServiceRaw) :
    EcsServicesOut × List (List String) :=
  if service_arns.isEmpty then
    ({ cluster := cluster_name, service_count := 0, services := [] }, [])
  else
    let batches := pyChunks 10 service_arns
    let services := batches.flatMap fun b => (describe_services b).map shapeEcsService
    ({ cluster := cluster_name, service_count := services.length, services := services },
     batches)

/-- A raw task record of `ecs.describe_tasks` (fields the tool reads; the
optional ones are fetched with `.get`; `startedAt` is modelled as its already
ISO-formatted text since the tool only calls `.isoformat()` on it). -/
structure EcsTaskRaw where
  taskArn : String
  taskDefinitionArn : String
  lastStatus : String
  healthStatus : Option String
  launchType : Option String
  cpu : Option String
  memory : Option String
  startedAt : Option String
  deriving DecidableEq

/-- The shaped task summary built by `list_ecs_tasks`. -/
structure TaskSummary where
  task_id : String
  task_definition : String
  status : String
  health_status : String
  launch_type : String
  cpu : String
  memory : String
  started_at : String
  deriving DecidableEq

/-- The dict literal appended per task in `list_ecs_tasks`. -/
def shapeEcsTask (t : EcsTaskRaw) : TaskSummary :=
  { task_id := lastSegment t.taskArn
    task_definition := lastSegment t.taskDefinitionArn
    status := t.lastStatus
    health_status := t.healthStatus.getD "UNKNOWN"
    launch_type := t.launchType.getD "EC2"
    cpu := t.cpu.getD "N/A"
    memory := t.memory.getD "N/A"
    started_at := t.startedAt.getD "Not started" }

/-- Success envelope of `list_ecs_tasks`. -/
structure EcsTasksOut where
  cluster : String
  task_count : Nat
  tasks : List TaskSummary
  deriving DecidableEq

/-- `src/tools/ecs.py`: `list_ecs_tasks` — same batched-describe shape as
`list_ecs_services` but with batch size 100 (`range(0, len(task_arns), 100)`
and `task_arns[i : i + 100]`).  Again paired with the log of describe calls. -/
def list_ecs_tasks (cluster_name : String) (task_arns : List String)
    (describe_tasks : List String → List EcsTaskRaw) :
    EcsTasksOut × List (List String) :=
  if task_arns.isEmpty then
    ({ cluster := cluster_name, task_count := 0, tasks := [] }, [])
  else
    let batches := pyChunks 100 task_arns
    let tasks := batches.flatMap fun b => (describe_tasks b).map shapeEcsTask
    ({ cluster := cluster_name, task_count := tasks.length, tasks := tasks }, batches)

/-! ## ECS: service status (`src/tools/ecs.py`, `get_ecs_service_status`) -/

/-- A raw deployment record inside a described service (`createdAt` modelled
as its ISO-formatted text). -/
structure EcsDeploymentRaw where
  id : String
  status : String
  desiredCount : Nat
  runningCount : Nat
  pendingCount : Nat
  createdAt : String
  taskDefinition : String
  deriving DecidableEq

/-- A raw service event: its `createdAt` ISO text and message. -/
structure EcsEventRaw where
  createdAt : String
  message : String
  deriving DecidableEq

/-- The full raw service record consumed by `get_ecs_service_status`. -/
structure EcsServiceDetail where
  serviceName : String
  status : String
  desiredCount : Nat
  runningCount : Nat
  pendingCount : Nat
  launchType : Option String
  taskDefinition : String
  deployments : List EcsDeploymentRaw
  events : List EcsEventRaw
  deriving DecidableEq

/-- The shaped deployment dict of `get_ecs_service_status`. -/
structure DeploymentSummary where
  id : String
  status : String
  desired_count : Nat
  running_count : Nat
  pending_count : Nat
  created : String
  task_definition : String
  deriving DecidableEq

/-- The shaped event dict of `get_ecs_service_status`. -/
structure EventSummary where
  timestamp : String
  message : String
  deriving DecidableEq

/-- Success payload of `get_ecs_service_status`. -/
structure SvcStatusPayload where
  cluster : String
  service_name : String
  status : String
  desired_count : Nat
  running_count : Nat
  pending_count : Nat
  launch_type : String
  task_definition : String
  deployments : List DeploymentSummary
  recent_events : List EventSummary
  deriving DecidableEq

/-- The three return shapes of `get_ecs_service_status`: the logical
not-found error, the success payload, and the generic `ClientError`
envelope. -/
inductive SvcStatusOut where
  | notFound (error : String)
  | ok (payload : SvcStatusPayload)
  | clientError (error : String)
  deriving DecidableEq

/-- `src/tools/ecs.py`: `get_ecs_service_status` — describe the single named
service; when the response's `services` list is empty return
`{error: "Service '<name>' not found in cluster '<cluster>'"}`; otherwise
shape the first service, its deployments, and its last five events
(`events[:5]`); a `ClientError` of the describe call yields `{error: str(e)}`. -/
def get_ecs_service_status (cluster_name service_name : String)
    (describe : Except String (List EcsServiceDetail)) : SvcStatusOut :=
  match describe with
  | .error e => .clientError e
  | .ok services =>
    match services with
    | [] =>
      .notFound ("Service " ++ sq ++ service_name ++ sq ++ " not found in cluster "
        ++ sq ++ cluster_name ++ sq)
    | service :: _ =>
      .ok
        { cluster := cluster_name
          service_name := service.serviceName
          status := service.status
          desired_count := service.desiredCount
          running_count := service.runningCount
          pending_count := service.pendingCount
          launch_type := service.launchType.getD "EC2"
          task_definition := lastSegment service.taskDefinition
          deployments := service.deployments.map fun dep =>
            { id := dep.id
              status := dep.status
              desired_count := dep.desiredCount
              running_count := dep.runningCount
              pending_count := dep.pendingCount
              created := dep.createdAt
              task_definition := lastSegment dep.taskDefinition }
          recent_events := (service.events.take 5).map fun ev =>
            { timestamp := ev.createdAt, message := ev.message } }

/-! ## ECS: Fargate-retirement error handling
(`src/tools/ecs.py`, `list_fargate_retirements`) -/

/-- The slice of a botocore `ClientError` the handler reads: the code at
`e.response["Error"]["Code"]` (`.get` chain defaulting to the empty string)
and the message `str(e)`. -/
structure ClientErrorM where
  code : String
  msg : String
  deriving DecidableEq

/-- The two error envelopes the `except ClientError` handler of
`list_fargate_retirements` can return: the entitlement envelope carrying both
an `error` and a `suggestion` key, and the bare `{error}` envelope. -/
inductive FargateErrEnvelope where
  | withSuggestion (error : String) (suggestion : String)
  | plain (error : String)
  deriving DecidableEq

/-- The top-level keys of a Fargate error envelope. -/
def fargateErrKeys : FargateErrEnvelope → List String
  | .withSuggestion _ _ => ["error", "suggestion"]
  | .plain _ => ["error"]

/-- `src/tools/ecs.py`: the `except ClientError` branch of
`list_fargate_retirements` — when the error code is
`SubscriptionRequiredException`, return the support-plan message together
with an actionable `suggestion`; otherwise return `{error: str(e)}`. -/
def fargate_handle_client_error (e : ClientErrorM) : FargateErrEnvelope :=
  if e.code == "SubscriptionRequiredException" then
    .withSuggestion "AWS Health API requires Business or Enterprise support plan"
      "Upgrade your AWS support plan or check the AWS Health Dashboard in the console manually"
  else
    .plain e.msg

/-! ## S3: cross-bucket object search (`src/tools/s3.py`, `find_object`) -/

/-- A raw S3 object listing entry (the fields the search reads;
`lastModified` modelled as its ISO-formatted text). -/
structure S3Object where
  key : String
  size : Nat
  lastModified : String
  deriving DecidableEq

/-- The shaped match record appended by `find_object`. -/
structure MatchRec where
  bucket : String
  key : String
  size : String
  last_modified : String
  deriving DecidableEq

/-- The dict literal appended for a matching object. -/
def mkMatch (bucket_name : String) (o : S3Object) : MatchRec :=
  { bucket := bucket_name
    key := o.key
    size := human_readable_size o.size
    last_modified := o.lastModified }

/-- One bucket of the search space: its name, the pages its
`list_objects_v2` paginator yields (a page without `Contents` behaves like an
empty page and is skipped), and — when the pagination raises `ClientError`
after those pages — the error text `str(e)`. -/
structure BucketEntry where
  name : String
  pages : List (List S3Object)
  err : Option String
  deriving DecidableEq

/-- The Python match test of `find_object`: `key == object_name` under
`exact_match`, else `object_name.lower() in key.lower()`. -/
def objMatches (object_name : String) (exact_match : Bool) (key : String) : Bool :=
  if exact_match then key == object_name
  else pyIn (strLower object_name) (strLower key)

/-- The two return shapes of the search body: the truncated early return
(which carries no `buckets_with_errors` field at all) and the final return
(whose `buckets_with_errors` is the collected per-bucket error list, rendered
as `None` when empty).  The truncated envelope's constant `message` field is
"Results limited to 50 matches". -/
inductive FindResult where
  | truncated (search_term : String) (exact_match : Bool) (match_count : Nat)
      (buckets_searched : Nat) (foundMatches : List MatchRec)
  | final (search_term : String) (exact_match : Bool) (match_count : Nat)
      (buckets_searched : Nat) (buckets_with_errors : List (String × String))
      (foundMatches : List MatchRec)
  deriving DecidableEq

/-- Whether the envelope carries `truncated: true`. -/
def FindResult.truncatedFlag : FindResult → Bool
  | .truncated .. => true
  | .final .. => false

/-- The `matches` list of the envelope. -/
def FindResult.matchList : FindResult → List MatchRec
  | .truncated _ _ _ _ ms => ms
  | .final _ _ _ _ _ ms => ms

/-- The `match_count` field of the envelope. -/
def FindResult.count : FindResult → Nat
  | .truncated _ _ n _ _ => n
  | .final _ _ n _ _ _ => n

/-- The `buckets_searched` field of the envelope. -/
def FindResult.searched : FindResult → Nat
  | .truncated _ _ _ n _ => n
  | .final _ _ _ n _ _ => n

/-- The collected per-bucket errors of the envelope (the truncated early
return has no such field: it reports nothing). -/
def FindResult.errList : FindResult → List (String × String)
  | .truncated .. => []
  | .final _ _ _ _ es _ => es

/-- The inner object loop of `find_object` over one page (continued across
pages): append a shaped match for each matching key, and the moment the
accumulated list reaches 50 matches, signal the early return (`Sum.inl`)
with the accumulated matches; otherwise (`Sum.inr`) hand the matches back. -/
def scanObjects (object_name : String) (exact_match : Bool) (bucket_name : String) :
    List S3Object → List MatchRec → List MatchRec ⊕ List MatchRec
  | [], acc => .inr acc
  | o :: rest, acc =>
    if objMatches object_name exact_match o.key then
      if 50 ≤ (acc ++ [mkMatch bucket_name o]).length then .inl (acc ++ [mkMatch bucket_name o])
      else scanObjects object_name exact_match bucket_name rest (acc ++ [mkMatch bucket_name o])
    else scanObjects object_name exact_match bucket_name rest acc

/-- The page loop of `find_object` over one bucket's pages. -/
def scanPages (object_name : String) (exact_match : Bool) (bucket_name : String) :
    List (List S3Object) → List MatchRec → List MatchRec ⊕ List MatchRec
  | [], acc => .inr acc
  | page :: rest, acc =>
    match scanObjects object_name exact_match bucket_name page acc with
    | .inl full => .inl full
    | .inr acc2 => scanPages object_name exact_match bucket_name rest acc2

/-- The bucket loop of `find_object`: count the bucket as searched, scan its
pages; a cap hit returns the truncated envelope immediately (dropping any
errors collected so far); a `ClientError` of the bucket's pagination appends
`{bucket, error}` to the side list and continues; after the last bucket the
final envelope reports everything. -/
def scanBuckets (object_name : String) (exact_match : Bool) :
    List BucketEntry → List MatchRec → Nat → List (String × String) → FindResult
  | [], found, searched, errs =>
    .final object_name exact_match found.length searched errs found
  | b :: rest, found, searched, errs =>
    match scanPages object_name exact_match b.name b.pages found with
    | .inl full => .truncated object_name exact_match full.length (searched + 1) full
    | .inr found2 =>
      match b.err with
      | some e =>
        scanBuckets object_name exact_match rest found2 (searched + 1) (errs ++ [(b.name, e)])
      | none => scanBuckets object_name exact_match rest found2 (searched + 1) errs

/-- `src/tools/s3.py`: `find_object` — search every bucket's object listing
for keys matching `object_name`, capping the result at 50 matches. -/
def find_object (object_name : String) (exact_match : Bool)
    (buckets : List BucketEntry) : FindResult :=
  scanBuckets object_name exact_match buckets [] 0 []

/-- The `{bucket, error}` pairs a full (non-truncated) pass over the given
buckets accumulates: one pair per bucket whose pagination failed. -/
def collectErrs (bs : List BucketEntry) : List (String × String) :=
  bs.filterMap fun b => b.err.map fun e => (b.name, e)

/-! ## S3: public access check (`src/tools/s3.py`, `check_bucket_public_access`) -/

/-- A `PublicAccessBlockConfiguration`; each flag is read with
`.get(..., False)`, so absent flags count as `False`. -/
structure PABConfig where
  blockPublicAcls : Option Bool
  ignorePublicAcls : Option Bool
  blockPublicPolicy : Option Bool
  restrictPublicBuckets : Option Bool
  deriving DecidableEq

/-- One bucket of the check: its name and the outcome of
`get_public_access_block` (`.error e` models `ClientError` with
`str(e) = e`). -/
structure BucketCheckInput where
  name : String
  pab : Except String PABConfig

/-- The per-bucket record `{bucket, public_access_blocked, issues}`. -/
structure BucketInfoRec where
  bucket : String
  public_access_blocked : Bool
  issues : List String
  deriving DecidableEq

/-- The per-bucket body of `check_bucket_public_access`: start from
`{public_access_blocked: True, issues: []}`; on a configuration, append an
issue and clear the flag for each disabled setting; on a `ClientError`, the
`NoSuchPublicAccessBlockConfiguration` message means no block is configured
(flag cleared), while any other error only appends an `Error checking:`
issue and leaves the flag `True`. -/
def checkOne (b : BucketCheckInput) : BucketInfoRec :=
  match b.pab with
  | .ok config =>
    let step := fun (st : Bool × List String) (flag : Option Bool) (issue : String) =>
      if !(flag.getD false) then (false, st.2 ++ [issue]) else st
    let st0 : Bool × List String := (true, [])
    let st1 := step st0 config.blockPublicAcls "BlockPublicAcls is disabled"
    let st2 := step st1 config.ignorePublicAcls "IgnorePublicAcls is disabled"
    let st3 := step st2 config.blockPublicPolicy "BlockPublicPolicy is disabled"
    let st4 := step st3 config.restrictPublicBuckets "RestrictPublicBuckets is disabled"
    { bucket := b.name, public_access_blocked := st4.1, issues := st4.2 }
  | .error e =>
    if pyIn "NoSuchPublicAccessBlockConfiguration" e then
      { bucket := b.name, public_access_blocked := false
        issues := ["No public access block configured"] }
    else
      { bucket := b.name, public_access_blocked := true
        issues := ["Error checking: " ++ e] }

/-- Success envelope of `check_bucket_public_access`. -/
structure CheckPublicOut where
  buckets_checked : Nat
  potentially_public_count : Nat
  buckets : List BucketInfoRec
  deriving DecidableEq

/-- `src/tools/s3.py`: `check_bucket_public_access` — check each bucket and
summarize `potentially_public_count` as the number of results whose
`public_access_blocked` flag is cleared. -/
def check_bucket_public_access (bs : List BucketCheckInput) : CheckPublicOut :=
  let results := bs.map checkOne
  let public_buckets := results.filter fun r => !r.public_access_blocked
  { buckets_checked := results.length
    potentially_public_count := public_buckets.length
    buckets := results }

/-! ## IAM: admin access (`src/tools/iam.py`, `list_users_with_admin_access`) -/

/-- The AdministratorAccess managed-policy ARN the tool compares against. -/
def admin_policy_arn : String := "arn:aws:iam::aws:policy/AdministratorAccess"

/-- One IAM user of the admin query: its directly attached policy ARNs
(`list_attached_user_policies`) and its groups with their attached policy
ARNs (`list_groups_for_user` + `list_attached_group_policies`). -/
structure AdminUserInput where
  userName : String
  attachedPolicyArns : List String
  groups : List (String × List String)
  deriving DecidableEq

/-- The attribution tags accumulated for one user: one `direct_attachment`
per directly attached AdministratorAccess policy, then, per group in order,
one `group:<name>` per AdministratorAccess policy attached to that group
(the source's two successive append loops). -/
def adminSources (u : AdminUserInput) : List String :=
  ((u.attachedPolicyArns.filter fun arn => arn == admin_policy_arn).map
      fun _ => "direct_attachment")
    ++ u.groups.flatMap fun g =>
      (g.2.filter fun arn => arn == admin_policy_arn).map fun _ => "group:" ++ g.1

/-- The shaped record `{username, admin_source}`. -/
structure AdminEntry where
  username : String
  admin_source : List String
  deriving DecidableEq

/-- Success envelope of `list_users_with_admin_access`. -/
structure AdminResult where
  admin_user_count : Nat
  users : List AdminEntry
  deriving DecidableEq

/-- `src/tools/iam.py`: `list_users_with_admin_access` — a user is appended
(once) exactly when `has_admin` was set, i.e. when at least one attribution
tag was accumulated, and carries the full accumulated `admin_source` list. -/
def list_users_with_admin_access (users : List AdminUserInput) : AdminResult :=
  let admin_users := users.filterMap fun u =>
    let src := adminSources u
    if src.isEmpty then none else some { username := u.userName, admin_source := src }
  { admin_user_count := admin_users.length, users := admin_users }

/-! ## The tool registry's envelope shapes

Every `@mcp.tool()` function in `src/tools/` returns a Python dict.  For the
envelope-discriminator invariant only the top-level key sets matter, so each
registered tool is recorded here with the key set of every one of its
`return` statements (success returns, error returns, and — where a key is
only conditionally inserted, as in `find_deprecated_runtimes` — one key set
per reachable combination), together with the set of keys that occur in its
success returns. -/
structure ToolShape where
  name : String
  successKeys : List String
  returnKeySets : List (List String)

/-- Does the key set contain a key belonging to the tool's success shape? -/
def hasSuccessField (successKeys ks : List String) : Bool :=
  ks.any fun k => successKeys.contains k

/-- The envelope discriminator: the top-level `error` key is present exactly
when no success field is present. -/
def discrOK (successKeys ks : List String) : Bool :=
  (ks.contains "error") != hasSuccessField successKeys ks

/-- All 21 registered tools of `src/tools/{ecs,iam,s3,lambda_tools}.py` with
the top-level key sets of their return statements. -/
def toolRegistryShapes : List ToolShape := [
  -- src/tools/ecs.py
  { name := "list_ecs_clusters"
    successKeys := ["cluster_count", "clusters"]
    returnKeySets := [["cluster_count", "clusters"], ["error"]] },
  { name := "list_ecs_services"
    successKeys := ["cluster", "service_count", "services"]
    returnKeySets := [["cluster", "service_count", "services"], ["error"]] },
  { name := "get_ecs_service_status"
    successKeys := ["cluster", "service_name", "status", "desired_count", "running_count",
      "pending_count", "launch_type", "task_definition", "deployments", "recent_events"]
    returnKeySets := [["error"],
      ["cluster", "service_name", "status", "desired_count", "running_count",
       "pending_count", "launch_type", "task_definition", "deployments", "recent_events"],
      ["error"]] },
  { name := "list_ecs_tasks"
    successKeys := ["cluster", "task_count", "tasks"]
    returnKeySets := [["cluster", "task_count", "tasks"], ["error"]] },
  { name := "describe_task_definition"
    successKeys := ["family", "revision", "status", "task_role", "execution_role",
      "network_mode", "cpu", "memory", "containers"]
    returnKeySets := [["family", "revision", "status", "task_role", "execution_role",
      "network_mode", "cpu", "memory", "containers"], ["error"]] },
  { name := "list_fargate_retirements"
    successKeys := ["days_checked", "retirement_count", "message", "retirements",
      "retirements_by_cluster"]
    returnKeySets := [["error"],
      ["days_checked", "retirement_count", "message", "retirements"],
      ["days_checked", "retirement_count", "retirements_by_cluster", "retirements"],
      ["error", "suggestion"], ["error"]] },
  -- src/tools/iam.py
  { name := "list_iam_users"
    successKeys := ["user_count", "users"]
    returnKeySets := [["user_count", "users"], ["error"]] },
  { name := "list_users_with_stale_credentials"
    successKeys := ["threshold_days", "stale_credential_count", "users"]
    returnKeySets := [["threshold_days", "stale_credential_count", "users"], ["error"]] },
  { name := "list_users_with_admin_access"
    successKeys := ["admin_user_count", "users"]
    returnKeySets := [["admin_user_count", "users"], ["error"]] },
  { name := "list_iam_roles"
    successKeys := ["role_count", "roles"]
    returnKeySets := [["role_count", "roles"], ["error"]] },
  { name := "get_role_trust_policy"
    successKeys := ["role_name", "trust_policy"]
    returnKeySets := [["role_name", "trust_policy"], ["error"]] },
  { name := "list_access_keys"
    successKeys := ["key_count", "access_keys"]
    returnKeySets := [["key_count", "access_keys"], ["error"]] },
  -- src/tools/s3.py
  { name := "list_s3_buckets"
    successKeys := ["bucket_count", "buckets"]
    returnKeySets := [["bucket_count", "buckets"], ["error"]] },
  { name := "get_bucket_size"
    successKeys := ["bucket", "object_count", "total_size_bytes", "total_size_human"]
    returnKeySets := [["bucket", "object_count", "total_size_bytes", "total_size_human"],
      ["error"]] },
  { name := "check_bucket_public_access"
    successKeys := ["buckets_checked", "potentially_public_count", "buckets"]
    returnKeySets := [["buckets_checked", "potentially_public_count", "buckets"],
      ["error"]] },
  { name := "find_object"
    successKeys := ["search_term", "exact_match", "match_count", "truncated", "message",
      "buckets_searched", "matches", "buckets_with_errors"]
    returnKeySets := [["search_term", "exact_match", "match_count", "truncated", "message",
      "buckets_searched", "matches"],
      ["search_term", "exact_match", "match_count", "truncated", "buckets_searched",
       "buckets_with_errors", "matches"], ["error"]] },
  { name := "get_bucket_encryption"
    successKeys := ["buckets_checked", "encrypted_count", "unencrypted_count",
      "unencrypted_buckets", "buckets"]
    returnKeySets := [["buckets_checked", "encrypted_count", "unencrypted_count",
      "unencrypted_buckets", "buckets"], ["error"]] },
  -- src/tools/lambda_tools.py
  { name := "list_lambda_functions"
    successKeys := ["function_count", "functions"]
    returnKeySets := [["function_count", "functions"], ["error"]] },
  { name := "find_deprecated_runtimes"
    successKeys := ["total_functions_scanned", "deprecated_count", "deprecated_functions",
      "approaching_eol_count", "approaching_eol_functions", "deprecated_runtime_summary"]
    returnKeySets := [
      ["total_functions_scanned", "deprecated_count", "deprecated_functions"],
      ["total_functions_scanned", "deprecated_count", "deprecated_functions",
       "approaching_eol_count", "approaching_eol_functions"],
      ["total_functions_scanned", "deprecated_count", "deprecated_functions",
       "deprecated_runtime_summary"],
      ["total_functions_scanned", "deprecated_count", "deprecated_functions",
       "approaching_eol_count", "approaching_eol_functions", "deprecated_runtime_summary"],
      ["error"]] },
  { name := "get_lambda_function"
    successKeys := ["name", "arn", "runtime", "deprecation_info", "handler", "role",
      "memory_mb", "timeout_seconds", "code_size_mb", "last_modified", "description",
      "state", "architectures", "environment_variables", "vpc_config", "layers", "tags"]
    returnKeySets := [["name", "arn", "runtime", "deprecation_info", "handler", "role",
      "memory_mb", "timeout_seconds", "code_size_mb", "last_modified", "description",
      "state", "architectures", "environment_variables", "vpc_config", "layers", "tags"],
      ["error"]] },
  { name := "list_lambda_runtimes"
    successKeys := ["supported_runtimes", "approaching_eol", "deprecated_runtimes",
      "recommendation"]
    returnKeySets := [["supported_runtimes", "approaching_eol", "deprecated_runtimes",
      "recommendation"]] }]

/-! ## Concrete inputs for the scenario conjuncts and witnesses -/

/-- The spec's stale-credentials scenario instant: 91 days after epoch. -/
def scenarioNow : Int := 91 * 86400

/-- Access key created 91 whole days before `scenarioNow`. -/
def keyA : AccessKeyMeta := { accessKeyId := "AKIAAAAA", createDate := 0, status := "Active" }

/-- Access key created exactly 90 whole days before `scenarioNow`. -/
def keyB : AccessKeyMeta := { accessKeyId := "AKIABBBB", createDate := 86400, status := "Active" }

/-- User A of the scenario: one key aged 91 days. -/
def userA : IamUser := { userName := "alice", accessKeys := [keyA] }

/-- User B of the scenario: one key aged 90 days. -/
def userB : IamUser := { userName := "bob", accessKeys := [keyB] }

/-- User C of the scenario: no access keys. -/
def userC : IamUser := { userName := "carol", accessKeys := [] }

/-- Twelve service identifiers for the batching scenario. -/
def arns12 : List String :=
  ["s01", "s02", "s03", "s04", "s05", "s06", "s07", "s08", "s09", "s10", "s11", "s12"]

/-- A per-identifier service detail function for the batching scenario. -/
def svcOf (a : String) : EcsServiceRaw :=
  { serviceName := a, status := "ACTIVE", desiredCount := 1, runningCount := 1,
    pendingCount := 0, launchType := none, taskDefinition := "td/" ++ a }

/-- A per-identifier task detail function for the batching scenario. -/
def taskOf (a : String) : EcsTaskRaw :=
  { taskArn := a, taskDefinitionArn := "td/" ++ a, lastStatus := "RUNNING",
    healthStatus := none, launchType := some "FARGATE", cpu := none, memory := none,
    startedAt := none }

/-- A single object whose key is searched for in the truncation scenarios. -/
def obj0 : S3Object := { key := "report.csv", size := 3, lastModified := "2024-01-01T00:00:00" }

/-- A bucket whose object listing fails (`ClientError`) before yielding any
page. -/
def bucketFailing : BucketEntry :=
  { name := "bucket-a", pages := [], err := some "AccessDenied during listing" }

/-- The same bucket with the failure removed. -/
def bucketHealthy : BucketEntry := { name := "bucket-a", pages := [], err := none }

/-- A bucket holding fifty matching objects on one page. -/
def bucketFull : BucketEntry :=
  { name := "bucket-b", pages := [List.replicate 50 obj0], err := none }

/-- A bucket holding a single matching object. -/
def bucketOne : BucketEntry := { name := "bucket-c", pages := [[obj0]], err := none }

/-- A user holding AdministratorAccess both directly and via a group. -/
def adminBoth : AdminUserInput :=
  { userName := "dana"
    attachedPolicyArns := [admin_policy_arn]
    groups := [("admins", [admin_policy_arn]), ("devs", [])] }

/-! ## Helper lemmas -/

/-- `pad2` always renders exactly two characters for inputs below 100. -/
theorem pad2_length : ∀ fp : Nat, fp < 100 → (pad2 fp).length = 2 := by decide

/-! ## C1: envelope discriminator -/

/-- C1: every tool's returned envelope satisfies the discriminator invariant —
for each of the 21 registered tools and each of its return statements
(success, transport failure, entitlement failure), exactly one of the
top-level `error` key or the tool's success fields is present, never both and
never neither. -/
theorem envelope_discriminator_invariant :
    (toolRegistryShapes.all fun t =>
      t.returnKeySets.all fun ks => discrOK t.successKeys ks) = true := by
  decide

/-! ## C5: human-readable size formatting -/

/-- C5: the size formatter uses binary (1024-based) thresholds; the sub-1024
branch prints the byte count with no decimals, every higher branch renders the
scaled value with exactly two digits after the decimal point; and the four
reference values come out as "0 B", "1023 B", "1.50 KB", "1.00 GB". -/
theorem human_readable_size_spec :
    human_readable_size 0 = "0 B"
    ∧ human_readable_size 1023 = "1023 B"
    ∧ human_readable_size 1536 = "1.50 KB"
    ∧ human_readable_size 1073741824 = "1.00 GB"
    ∧ (∀ n : Nat, n < 1024 → human_readable_size n = toString n ++ " B")
    ∧ (∀ n : Nat, 1024 ≤ n → n < 1024 ^ 2 →
        human_readable_size n = fmtFix2 n 1024 ++ " KB")
    ∧ (∀ n : Nat, 1024 ^ 2 ≤ n → n < 1024 ^ 3 →
        human_readable_size n = fmtFix2 n (1024 ^ 2) ++ " MB")
    ∧ (∀ n : Nat, 1024 ^ 3 ≤ n → n < 1024 ^ 4 →
        human_readable_size n = fmtFix2 n (1024 ^ 3) ++ " GB")
    ∧ (∀ n : Nat, 1024 ^ 4 ≤ n → human_readable_size n = fmtFix2 n (1024 ^ 4) ++ " TB")
    ∧ (∀ num den : Nat, ∃ ip fp : Nat, fp < 100 ∧ (pad2 fp).length = 2
        ∧ fmtFix2 num den = toString ip ++ "." ++ pad2 fp) := by
  refine ⟨by decide, by decide, by decide, by decide, ?_, ?_, ?_, ?_, ?_, ?_⟩
  · intro n h
    unfold human_readable_size
    rw [if_pos h]
  · intro n h1 h2
    unfold human_readable_size
    rw [if_neg (by omega), if_pos h2]
  · intro n h1 h2
    unfold human_readable_size
    rw [if_neg (by omega), if_neg (by omega), if_pos h2]
  · intro n h1 h2
    unfold human_readable_size
    rw [if_neg (by omega), if_neg (by omega), if_neg (by omega), if_pos h2]
  · intro n h1
    unfold human_readable_size
    rw [if_neg (by omega), if_neg (by omega), if_neg (by omega), if_neg (by omega)]
  · intro num den
    refine ⟨fix2Scaled num den / 100, fix2Scaled num den % 100, ?_, ?_, rfl⟩
    · exact Nat.mod_lt _ (by norm_num)
    · exact pad2_length _ (Nat.mod_lt _ (by norm_num))

/-- Witness for C5: the hypotheses of the branch statements hold at concrete
byte counts. -/
theorem human_readable_size_spec_witness :
    human_readable_size 500 = toString 500 ++ " B"
    ∧ human_readable_size 2048 = fmtFix2 2048 1024 ++ " KB"
    ∧ human_readable_size (1024 ^ 4 * 3) = fmtFix2 (1024 ^ 4 * 3) (1024 ^ 4) ++ " TB" :=
  ⟨human_readable_size_spec.2.2.2.2.1 500 (by norm_num),
   human_readable_size_spec.2.2.2.2.2.1 2048 (by norm_num) (by norm_num),
   human_readable_size_spec.2.2.2.2.2.2.2.2.1 (1024 ^ 4 * 3) (by norm_num)⟩

/-! ## C9: not-found envelope of `get_ecs_service_status` -/

/-- C9: when the describe call answers with an empty `services` list, the tool
returns the logical not-found envelope `{error: "Service '<name>' not found in
cluster '<cluster>'"}` and not a generic transport-error envelope. -/
theorem service_not_found_envelope (cluster_name service_name : String)
    (describe : Except String (List EcsServiceDetail))
    (h : describe = .ok []) :
    get_ecs_service_status cluster_name service_name describe
      = .notFound ("Service " ++ sq ++ service_name ++ sq ++ " not found in cluster "
          ++ sq ++ cluster_name ++ sq)
    ∧ ∀ e, get_ecs_service_status cluster_name service_name describe
        ≠ .clientError e := by
  subst h
  exact ⟨rfl, fun e hc => SvcStatusOut.noConfusion hc⟩

/-- Witness for C9: the concrete not-found message for service `web` in
cluster `prod`. -/
theorem service_not_found_envelope_witness :
    get_ecs_service_status "prod" "web" (.ok [])
      = .notFound ("Service " ++ sq ++ "web" ++ sq ++ " not found in cluster "
          ++ sq ++ "prod" ++ sq) :=
  (service_not_found_envelope "prod" "web" (.ok []) rfl).1

/-! ## C7: entitlement error of `list_fargate_retirements` -/

/-- C7 counterexample: the claim says the entitlement result is "structurally
similar to success", but by the spec's own discriminator (absence of the
`error` key marks success, §3 and P6) the envelope returned for
`SubscriptionRequiredException` is error-shaped: its top-level keys are
exactly `error` and `suggestion`, so the `error` key is present. -/
theorem fargate_entitlement_not_success_shaped :
    fargateErrKeys (fargate_handle_client_error
        { code := "SubscriptionRequiredException", msg := "boom" })
      = ["error", "suggestion"]
    ∧ "error" ∈ fargateErrKeys (fargate_handle_client_error
        { code := "SubscriptionRequiredException", msg := "boom" }) := by
  exact ⟨rfl, by decide⟩

/-- C7 (amended): on `SubscriptionRequiredException` the tool returns the
error envelope augmented with a `suggestion` field — distinguished from the
bare `{error}` envelope, which every other `ClientError` code receives. -/
theorem fargate_entitlement_suggestion (e : ClientErrorM) :
    (e.code = "SubscriptionRequiredException" →
      fargate_handle_client_error e
        = .withSuggestion "AWS Health API requires Business or Enterprise support plan"
            "Upgrade your AWS support plan or check the AWS Health Dashboard in the console manually"
      ∧ "suggestion" ∈ fargateErrKeys (fargate_handle_client_error e)
      ∧ ∀ m, fargate_handle_client_error e ≠ .plain m)
    ∧ (e.code ≠ "SubscriptionRequiredException" →
      fargate_handle_client_error e = .plain e.msg) := by
  constructor
  · intro hc
    have heq : fargate_handle_client_error e
        = .withSuggestion "AWS Health API requires Business or Enterprise support plan"
            "Upgrade your AWS support plan or check the AWS Health Dashboard in the console manually" := by
      unfold fargate_handle_client_error
      rw [if_pos (by simp [hc])]
    refine ⟨heq, ?_, ?_⟩
    · rw [heq]; decide
    · intro m hm
      rw [heq] at hm
      exact FargateErrEnvelope.noConfusion hm
  · intro hc
    unfold fargate_handle_client_error
    rw [if_neg (by simpa using hc)]

/-- Witness for C7: both branches of the amended statement at concrete error
codes. -/
theorem fargate_entitlement_suggestion_witness :
    "suggestion" ∈ fargateErrKeys (fargate_handle_client_error
        { code := "SubscriptionRequiredException", msg := "boom" })
    ∧ fargate_handle_client_error { code := "Throttling", msg := "slow down" }
        = .plain "slow down" :=
  ⟨((fargate_entitlement_suggestion
      { code := "SubscriptionRequiredException", msg := "boom" }).1 rfl).2.1,
   (fargate_entitlement_suggestion
      { code := "Throttling", msg := "slow down" }).2 (by decide)⟩

/-! ## C2: stale-credential threshold boundary -/

/-- C2: a key is classified stale iff its whole-day age (floor of the elapsed
time) is strictly greater than the threshold — age = threshold is not stale,
age = threshold + 1 is — and in the reference scenario (threshold 90, keys
aged 91 and 90 days plus a keyless user) exactly the 91-day key is reported,
with `key_age_days = 91`. -/
theorem stale_threshold_boundary (now days : Int) (users : List IamUser) :
    (∀ e ∈ (list_users_with_stale_credentials now users days).users,
      e.key_age_days > days)
    ∧ (∀ u ∈ users, ∀ k ∈ u.accessKeys,
        (mkStaleEntry now u k ∈ (list_users_with_stale_credentials now users days).users
          ↔ timedeltaDays now k.createDate > days))
    ∧ (list_users_with_stale_credentials scenarioNow [userA, userB, userC] 90).users
        = [mkStaleEntry scenarioNow userA keyA]
    ∧ (mkStaleEntry scenarioNow userA keyA).key_age_days = 91
    ∧ (list_users_with_stale_credentials scenarioNow [userA, userB, userC]
        90).stale_credential_count = 1 := by
  have hall : ∀ e ∈ (list_users_with_stale_credentials now users days).users,
      e.key_age_days > days := by
    intro e he
    simp only [list_users_with_stale_credentials, List.mem_flatMap,
      List.mem_filterMap] at he
    obtain ⟨u, _, k, _, hif⟩ := he
    by_cases hcond : timedeltaDays now k.createDate > days
    · rw [if_pos hcond] at hif
      cases hif
      exact hcond
    · rw [if_neg hcond] at hif
      exact absurd hif (by simp)
  refine ⟨hall, ?_, by decide, by decide, by decide⟩
  intro u hu k hk
  constructor
  · intro hmem
    exact hall _ hmem
  · intro hcond
    simp only [list_users_with_stale_credentials, List.mem_flatMap, List.mem_filterMap]
    exact ⟨u, hu, k, hk, by rw [if_pos hcond]⟩

/-- Witness for C2: in the reference scenario the 91-day key's entry is a
member of the returned stale list, via the classification iff. -/
theorem stale_threshold_boundary_witness :
    mkStaleEntry scenarioNow userA keyA
      ∈ (list_users_with_stale_credentials scenarioNow [userA, userB, userC] 90).users :=
  ((stale_threshold_boundary scenarioNow 90 [userA, userB, userC]).2.1 userA
    (by decide) keyA (by decide)).mpr (by decide)

/-! ## C10: check failures count as blocked -/

/-- C10: a bucket whose public-access-block lookup fails with an error other
than `NoSuchPublicAccessBlockConfiguration` is reported with
`public_access_blocked: true` and only an `Error checking:` issue, and so
contributes nothing to `potentially_public_count`. -/
theorem check_failure_counted_blocked (b : BucketCheckInput) (e : String)
    (bs : List BucketCheckInput)
    (hb : b.pab = .error e)
    (hn : pyIn "NoSuchPublicAccessBlockConfiguration" e = false) :
    (checkOne b).public_access_blocked = true
    ∧ (checkOne b).issues = ["Error checking: " ++ e]
    ∧ (check_bucket_public_access (b :: bs)).potentially_public_count
        = (check_bucket_public_access bs).potentially_public_count
    ∧ (check_bucket_public_access (b :: bs)).buckets_checked = bs.length + 1 := by
  have hone : checkOne b
      = { bucket := b.name, public_access_blocked := true,
          issues := ["Error checking: " ++ e] } := by
    unfold checkOne
    rw [hb]
    simp [hn]
  refine ⟨by rw [hone], by rw [hone], ?_, by simp [check_bucket_public_access]⟩
  simp only [check_bucket_public_access, List.map_cons]
  rw [hone]
  simp

/-- Witness for C10: a concrete `AccessDenied` failure is reported blocked and
leaves the potentially-public count untouched. -/
theorem check_failure_counted_blocked_witness :
    (checkOne { name := "logs", pab := .error "AccessDenied" }).public_access_blocked = true
    ∧ (check_bucket_public_access
        [{ name := "logs", pab := .error "AccessDenied" }]).potentially_public_count
      = (check_bucket_public_access []).potentially_public_count :=
  ⟨(check_failure_counted_blocked { name := "logs", pab := .error "AccessDenied" }
      "AccessDenied" [] rfl (by decide)).1,
   (check_failure_counted_blocked { name := "logs", pab := .error "AccessDenied" }
      "AccessDenied" [] rfl (by decide)).2.2.1⟩

/-! ## C3: batched describers -/

/-- Concatenating the slices of the chunking loop recovers the input, given
enough fuel and a positive batch size. -/
theorem sliceChunks_flatten {α : Type} (B : Nat) (hB : 0 < B) :
    ∀ (fuel : Nat) (l : List α), l.length ≤ fuel → (sliceChunks B fuel l).flatten = l := by
  intro fuel
  induction fuel with
  | zero =>
    intro l hl
    have h0 : l = [] := List.length_eq_zero.mp (Nat.le_zero.mp hl)
    subst h0
    rfl
  | succ n ih =>
    intro l hl
    match l with
    | [] => rfl
    | x :: xs =>
      have hfuel : (List.drop B (x :: xs)).length ≤ n := by
        have hlen : (x :: xs).length = xs.length + 1 := rfl
        simp only [List.length_drop]
        omega
      show (List.take B (x :: xs) :: sliceChunks B n (List.drop B (x :: xs))).flatten
          = x :: xs
      rw [List.flatten_cons, ih (List.drop B (x :: xs)) hfuel]
      exact List.take_append_drop B (x :: xs)

/-- The chunking loop issues exactly `ceil (length / B)` slices. -/
theorem sliceChunks_length {α : Type} (B : Nat) (hB : 0 < B) :
    ∀ (fuel : Nat) (l : List α), l.length ≤ fuel →
      (sliceChunks B fuel l).length = (l.length + B - 1) / B := by
  intro fuel
  induction fuel with
  | zero =>
    intro l hl
    have h0 : l = [] := List.length_eq_zero.mp (Nat.le_zero.mp hl)
    subst h0
    show (0 : Nat) = ([].length + B - 1) / B
    rw [List.length_nil, Nat.zero_add, Nat.div_eq_of_lt (by omega)]
  | succ n ih =>
    intro l hl
    match l with
    | [] =>
      show (0 : Nat) = ([].length + B - 1) / B
      rw [List.length_nil, Nat.zero_add, Nat.div_eq_of_lt (by omega)]
    | x :: xs =>
      have hlen : (x :: xs).length = xs.length + 1 := rfl
      have hfuel : (List.drop B (x :: xs)).length ≤ n := by
        simp only [List.length_drop]
        omega
      show (List.take B (x :: xs) :: sliceChunks B n (List.drop B (x :: xs))).length
          = ((x :: xs).length + B - 1) / B
      rw [List.length_cons, ih (List.drop B (x :: xs)) hfuel, List.length_drop]
      rcases le_or_lt B (x :: xs).length with hc | hc
      · have e2 : (x :: xs).length + B - 1 = ((x :: xs).length - 1) + B := by omega
        have e3 : (x :: xs).length - 1 = ((x :: xs).length - B + B - 1) := by omega
        rw [e2, Nat.add_div_right _ hB, e3]
      · have e1 : (x :: xs).length - B = 0 := by omega
        have e2 : (x :: xs).length + B - 1 = ((x :: xs).length - 1) + B := by omega
        rw [e1, e2, Nat.add_div_right _ hB, Nat.zero_add,
          Nat.div_eq_of_lt (by omega : B - 1 < B),
          Nat.div_eq_of_lt (by omega : (x :: xs).length - 1 < B)]

/-- Every slice of the chunking loop holds at most `B` identifiers. -/
theorem sliceChunks_mem_le {α : Type} (B : Nat) :
    ∀ (fuel : Nat) (l : List α), ∀ c ∈ sliceChunks B fuel l, c.length ≤ B := by
  intro fuel
  induction fuel with
  | zero =>
    intro l c hc
    match l with
    | [] => exact absurd hc (by simp [sliceChunks])
    | _ :: _ => exact absurd hc (by simp [sliceChunks])
  | succ n ih =>
    intro l c hc
    match l with
    | [] => exact absurd hc (by simp [sliceChunks])
    | x :: xs =>
      rw [show sliceChunks B (n + 1) (x :: xs)
          = List.take B (x :: xs) :: sliceChunks B n (List.drop B (x :: xs)) from rfl,
        List.mem_cons] at hc
      rcases hc with hc | hc
      · subst hc
        simp
      · exact ih _ c hc

/-- `pyChunks` flattens back to the input when the batch size is positive. -/
theorem pyChunks_flatten {α : Type} (B : Nat) (hB : 0 < B) (l : List α) :
    (pyChunks B l).flatten = l :=
  sliceChunks_flatten B hB l.length l le_rfl

/-- `pyChunks` produces exactly `ceil (length / B)` batches. -/
theorem pyChunks_length {α : Type} (B : Nat) (hB : 0 < B) (l : List α) :
    (pyChunks B l).length = (l.length + B - 1) / B :=
  sliceChunks_length B hB l.length l le_rfl

/-- Every `pyChunks` batch has at most `B` elements. -/
theorem pyChunks_mem_le {α : Type} (B : Nat) (l : List α) :
    ∀ c ∈ pyChunks B l, c.length ≤ B :=
  sliceChunks_mem_le B l.length l

/-- Mapping then flattening chunk results equals mapping over the flattening. -/
theorem flatMap_map_eq_flatten_map {α β : Type} (f : α → β) :
    ∀ cs : List (List α), (cs.flatMap fun c => c.map f) = cs.flatten.map f := by
  intro cs
  induction cs with
  | nil => rfl
  | cons c cs ih => simp [List.flatMap_cons, ih]

/-- C3: both batched describers (`list_ecs_services` with B = 10,
`list_ecs_tasks` with B = 100) issue exactly `ceil (n / B)` detail-fetch
calls, each with at most `B` identifiers; the concatenated per-chunk results
preserve input order; the empty identifier sequence issues no call and yields
no record; and for 12 identifiers with B = 10 the calls have sizes 10 and 2
and the 12 records come back in input order. -/
theorem batched_describer_correct (cluster : String) (sArns tArns : List String)
    (dS : List String → List EcsServiceRaw) (f : String → EcsServiceRaw)
    (hS : ∀ b, dS b = b.map f)
    (dT : List String → List EcsTaskRaw) (g : String → EcsTaskRaw)
    (hT : ∀ b, dT b = b.map g) :
    ((list_ecs_services cluster sArns dS).2.length = (sArns.length + 10 - 1) / 10
      ∧ (∀ b ∈ (list_ecs_services cluster sArns dS).2, b.length ≤ 10)
      ∧ (list_ecs_services cluster sArns dS).2.flatten = sArns
      ∧ (list_ecs_services cluster sArns dS).1.services
          = sArns.map (fun a => shapeEcsService (f a))
      ∧ (sArns = [] → (list_ecs_services cluster sArns dS).2 = []
          ∧ (list_ecs_services cluster sArns dS).1.services = []))
    ∧ ((list_ecs_tasks cluster tArns dT).2.length = (tArns.length + 100 - 1) / 100
      ∧ (∀ b ∈ (list_ecs_tasks cluster tArns dT).2, b.length ≤ 100)
      ∧ (list_ecs_tasks cluster tArns dT).2.flatten = tArns
      ∧ (list_ecs_tasks cluster tArns dT).1.tasks
          = tArns.map (fun a => shapeEcsTask (g a))
      ∧ (tArns = [] → (list_ecs_tasks cluster tArns dT).2 = []
          ∧ (list_ecs_tasks cluster tArns dT).1.tasks = []))
    ∧ ((list_ecs_services "c" arns12 (fun b => b.map svcOf)).2.map List.length = [10, 2]
      ∧ (list_ecs_services "c" arns12 (fun b => b.map svcOf)).1.services
          = arns12.map (fun a => shapeEcsService (svcOf a))) := by
  have hservices :
      (list_ecs_services cluster sArns dS).2.length = (sArns.length + 10 - 1) / 10
      ∧ (∀ b ∈ (list_ecs_services cluster sArns dS).2, b.length ≤ 10)
      ∧ (list_ecs_services cluster sArns dS).2.flatten = sArns
      ∧ (list_ecs_services cluster sArns dS).1.services
          = sArns.map (fun a => shapeEcsService (f a)) := by
    unfold list_ecs_services
    by_cases hemp : sArns.isEmpty
    · have h0 : sArns = [] := List.isEmpty_iff.mp hemp
      subst h0
      simp
    · rw [if_neg hemp]
      refine ⟨pyChunks_length 10 (by norm_num) sArns, pyChunks_mem_le 10 sArns,
        pyChunks_flatten 10 (by norm_num) sArns, ?_⟩
      show ((pyChunks 10 sArns).flatMap fun b => (dS b).map shapeEcsService)
          = sArns.map (fun a => shapeEcsService (f a))
      have hstep : ∀ b : List String, (dS b).map shapeEcsService
          = b.map (fun a => shapeEcsService (f a)) := by
        intro b
        rw [hS b, List.map_map]
        rfl
      calc ((pyChunks 10 sArns).flatMap fun b => (dS b).map shapeEcsService)
          = (pyChunks 10 sArns).flatMap fun b =>
              b.map (fun a => shapeEcsService (f a)) :=
            List.flatMap_congr fun b _ => hstep b
        _ = (pyChunks 10 sArns).flatten.map (fun a => shapeEcsService (f a)) :=
            flatMap_map_eq_flatten_map _ _
        _ = sArns.map (fun a => shapeEcsService (f a)) := by
            rw [pyChunks_flatten 10 (by norm_num) sArns]
  have htasks :
      (list_ecs_tasks cluster tArns dT).2.length = (tArns.length + 100 - 1) / 100
      ∧ (∀ b ∈ (list_ecs_tasks cluster tArns dT).2, b.length ≤ 100)
      ∧ (list_ecs_tasks cluster tArns dT).2.flatten = tArns
      ∧ (list_ecs_tasks cluster tArns dT).1.tasks
          = tArns.map (fun a => shapeEcsTask (g a)) := by
    unfold list_ecs_tasks
    by_cases hemp : tArns.isEmpty
    · have h0 : tArns = [] := List.isEmpty_iff.mp hemp
      subst h0
      simp
    · rw [if_neg hemp]
      refine ⟨pyChunks_length 100 (by norm_num) tArns, pyChunks_mem_le 100 tArns,
        pyChunks_flatten 100 (by norm_num) tArns, ?_⟩
      show ((pyChunks 100 tArns).flatMap fun b => (dT b).map shapeEcsTask)
          = tArns.map (fun a => shapeEcsTask (g a))
      have hstep : ∀ b : List String, (dT b).map shapeEcsTask
          = b.map (fun a => shapeEcsTask (g a)) := by
        intro b
        rw [hT b, List.map_map]
        rfl
      calc ((pyChunks 100 tArns).flatMap fun b => (dT b).map shapeEcsTask)
          = (pyChunks 100 tArns).flatMap fun b =>
              b.map (fun a => shapeEcsTask (g a)) :=
            List.flatMap_congr fun b _ => hstep b
        _ = (pyChunks 100 tArns).flatten.map (fun a => shapeEcsTask (g a)) :=
            flatMap_map_eq_flatten_map _ _
        _ = tArns.map (fun a => shapeEcsTask (g a)) := by
            rw [pyChunks_flatten 100 (by norm_num) tArns]
  refine ⟨⟨hservices.1, hservices.2.1, hservices.2.2.1, hservices.2.2.2, ?_⟩,
    ⟨htasks.1, htasks.2.1, htasks.2.2.1, htasks.2.2.2, ?_⟩, by rfl, by rfl⟩
  · intro hnil
    subst hnil
    exact ⟨rfl, rfl⟩
  · intro hnil
    subst hnil
    exact ⟨rfl, rfl⟩

/-- Witness for C3: the batched describers at twelve concrete identifiers
with per-identifier detail functions. -/
theorem batched_describer_correct_witness :
    (list_ecs_services "c" arns12 (fun b => b.map svcOf)).2.length
      = (arns12.length + 10 - 1) / 10
    ∧ (list_ecs_tasks "c" arns12 (fun b => b.map taskOf)).2.length
      = (arns12.length + 100 - 1) / 100 :=
  ⟨(batched_describer_correct "c" arns12 arns12 (fun b => b.map svcOf) svcOf
      (fun _ => rfl) (fun b => b.map taskOf) taskOf (fun _ => rfl)).1.1,
   (batched_describer_correct "c" arns12 arns12 (fun b => b.map svcOf) svcOf
      (fun _ => rfl) (fun b => b.map taskOf) taskOf (fun _ => rfl)).2.1.1⟩

/-! ## C4 and C6: bounded search with truncation -/

/-- When the object scan signals the cap, the accumulated list holds exactly
50 matches (it grows one match at a time and is checked after each append). -/
theorem scanObjects_inl (term : String) (ex : Bool) (bname : String) :
    ∀ (objs : List S3Object) (acc full : List MatchRec), acc.length < 50 →
      scanObjects term ex bname objs acc = .inl full → full.length = 50 := by
  intro objs
  induction objs with
  | nil =>
    intro acc full h hscan
    exact absurd hscan (by simp [scanObjects])
  | cons o rest ih =>
    intro acc full h hscan
    rw [scanObjects] at hscan
    by_cases hm : objMatches term ex o.key
    · rw [if_pos hm] at hscan
      by_cases hcap : 50 ≤ (acc ++ [mkMatch bname o]).length
      · rw [if_pos hcap] at hscan
        cases hscan
        rw [List.length_append] at hcap ⊢
        simp only [List.length_cons, List.length_nil] at hcap ⊢
        omega
      · rw [if_neg hcap] at hscan
        exact ih _ full (by omega) hscan
    · rw [if_neg hm] at hscan
      exact ih _ full h hscan

/-- When the object scan completes without hitting the cap, the accumulated
list stays under 50 matches. -/
theorem scanObjects_inr (term : String) (ex : Bool) (bname : String) :
    ∀ (objs : List S3Object) (acc acc2 : List MatchRec), acc.length < 50 →
      scanObjects term ex bname objs acc = .inr acc2 → acc2.length < 50 := by
  intro objs
  induction objs with
  | nil =>
    intro acc acc2 h hscan
    rw [scanObjects] at hscan
    cases hscan
    exact h
  | cons o rest ih =>
    intro acc acc2 h hscan
    rw [scanObjects] at hscan
    by_cases hm : objMatches term ex o.key
    · rw [if_pos hm] at hscan
      by_cases hcap : 50 ≤ (acc ++ [mkMatch bname o]).length
      · rw [if_pos hcap] at hscan
        exact absurd hscan (by simp)
      · rw [if_neg hcap] at hscan
        exact ih _ acc2 (by omega) hscan
    · rw [if_neg hm] at hscan
      exact ih _ acc2 h hscan

/-- Page-level version of `scanObjects_inl`. -/
theorem scanPages_inl (term : String) (ex : Bool) (bname : String) :
    ∀ (pages : List (List S3Object)) (acc full : List MatchRec), acc.length < 50 →
      scanPages term ex bname pages acc = .inl full → full.length = 50 := by
  intro pages
  induction pages with
  | nil =>
    intro acc full h hscan
    exact absurd hscan (by simp [scanPages])
  | cons page rest ih =>
    intro acc full h hscan
    cases hso : scanObjects term ex bname page acc with
    | inl full2 =>
      simp only [scanPages, hso] at hscan
      cases hscan
      exact scanObjects_inl term ex bname page acc full h hso
    | inr acc2 =>
      simp only [scanPages, hso] at hscan
      exact ih acc2 full (scanObjects_inr term ex bname page acc acc2 h hso) hscan

/-- Page-level version of `scanObjects_inr`. -/
theorem scanPages_inr (term : String) (ex : Bool) (bname : String) :
    ∀ (pages : List (List S3Object)) (acc acc2 : List MatchRec), acc.length < 50 →
      scanPages term ex bname pages acc = .inr acc2 → acc2.length < 50 := by
  intro pages
  induction pages with
  | nil =>
    intro acc acc2 h hscan
    rw [scanPages] at hscan
    cases hscan
    exact h
  | cons page rest ih =>
    intro acc acc2 h hscan
    cases hso : scanObjects term ex bname page acc with
    | inl full2 =>
      simp only [scanPages, hso] at hscan
      exact absurd hscan (by simp)
    | inr acc3 =>
      simp only [scanPages, hso] at hscan
      exact ih acc3 acc2 (scanObjects_inr term ex bname page acc acc3 h hso) hscan

/-- Invariant of the bucket loop: the match list never exceeds the cap, the
reported `match_count` always equals the match-list length, a truncated
result holds exactly 50 matches, and a completed result stays under the cap
and has counted every bucket. -/
theorem scanBuckets_spec (term : String) (ex : Bool) :
    ∀ (bs : List BucketEntry) (acc : List MatchRec) (searched : Nat)
      (errs : List (String × String)), acc.length < 50 →
      (scanBuckets term ex bs acc searched errs).matchList.length ≤ 50
      ∧ (scanBuckets term ex bs acc searched errs).count
          = (scanBuckets term ex bs acc searched errs).matchList.length
      ∧ ((scanBuckets term ex bs acc searched errs).truncatedFlag = true →
          (scanBuckets term ex bs acc searched errs).matchList.length = 50)
      ∧ ((scanBuckets term ex bs acc searched errs).truncatedFlag = false →
          (scanBuckets term ex bs acc searched errs).matchList.length < 50
          ∧ (scanBuckets term ex bs acc searched errs).searched
              = searched + bs.length) := by
  intro bs
  induction bs with
  | nil =>
    intro acc searched errs h
    refine ⟨Nat.le_of_lt h, rfl, ?_, ?_⟩
    · intro hflag
      exact absurd hflag (by simp [scanBuckets, FindResult.truncatedFlag])
    · intro _
      exact ⟨h, by simp [scanBuckets, FindResult.searched]⟩
  | cons b rest ih =>
    intro acc searched errs h
    cases hsp : scanPages term ex b.name b.pages acc with
    | inl full =>
      have h50 : full.length = 50 := scanPages_inl term ex b.name b.pages acc full h hsp
      simp only [scanBuckets, hsp, FindResult.matchList, FindResult.count,
        FindResult.truncatedFlag, FindResult.searched]
      exact ⟨by omega, trivial, fun _ => h50, fun hflag => absurd hflag (by simp)⟩
    | inr acc2 =>
      have h2 : acc2.length < 50 := scanPages_inr term ex b.name b.pages acc acc2 h hsp
      cases herr : b.err with
      | some e =>
        have := ih acc2 (searched + 1) (errs ++ [(b.name, e)]) h2
        simp only [scanBuckets, hsp, herr]
        refine ⟨this.1, this.2.1, this.2.2.1, ?_⟩
        intro hflag
        refine ⟨(this.2.2.2 hflag).1, ?_⟩
        rw [(this.2.2.2 hflag).2]
        simp only [List.length_cons]
        omega
      | none =>
        have := ih acc2 (searched + 1) errs h2
        simp only [scanBuckets, hsp, herr]
        refine ⟨this.1, this.2.1, this.2.2.1, ?_⟩
        intro hflag
        refine ⟨(this.2.2.2 hflag).1, ?_⟩
        rw [(this.2.2.2 hflag).2]
        simp only [List.length_cons]
        omega

/-- Once a prefix of the bucket list triggers truncation, appending further
buckets leaves the result unchanged: the early return never looks at them. -/
theorem scanBuckets_truncated_stable (term : String) (ex : Bool) :
    ∀ (bs extra : List BucketEntry) (acc : List MatchRec) (searched : Nat)
      (errs : List (String × String)),
      (scanBuckets term ex bs acc searched errs).truncatedFlag = true →
      scanBuckets term ex (bs ++ extra) acc searched errs
        = scanBuckets term ex bs acc searched errs := by
  intro bs
  induction bs with
  | nil =>
    intro extra acc searched errs hflag
    exact absurd hflag (by simp [scanBuckets, FindResult.truncatedFlag])
  | cons b rest ih =>
    intro extra acc searched errs hflag
    cases hsp : scanPages term ex b.name b.pages acc with
    | inl full =>
      simp only [List.cons_append, scanBuckets, hsp]
    | inr acc2 =>
      simp only [scanBuckets, hsp] at hflag
      cases herr : b.err with
      | some e =>
        rw [herr] at hflag
        simp only [List.cons_append, scanBuckets, hsp, herr]
        exact ih extra acc2 (searched + 1) (errs ++ [(b.name, e)]) hflag
      | none =>
        rw [herr] at hflag
        simp only [List.cons_append, scanBuckets, hsp, herr]
        exact ih extra acc2 (searched + 1) errs hflag

/-- A completed (non-truncated) bucket loop reports exactly the error pairs
accumulated so far followed by one pair per failing bucket. -/
theorem scanBuckets_final_errs (term : String) (ex : Bool) :
    ∀ (bs : List BucketEntry) (acc : List MatchRec) (searched : Nat)
      (errs : List (String × String)),
      (scanBuckets term ex bs acc searched errs).truncatedFlag = false →
      (scanBuckets term ex bs acc searched errs).errList = errs ++ collectErrs bs := by
  intro bs
  induction bs with
  | nil =>
    intro acc searched errs _
    simp [scanBuckets, FindResult.errList, collectErrs]
  | cons b rest ih =>
    intro acc searched errs hflag
    cases hsp : scanPages term ex b.name b.pages acc with
    | inl full =>
      simp only [scanBuckets, hsp, FindResult.truncatedFlag] at hflag
      exact absurd hflag (by simp)
    | inr acc2 =>
      simp only [scanBuckets, hsp] at hflag ⊢
      cases herr : b.err with
      | some e =>
        rw [herr] at hflag
        rw [ih acc2 (searched + 1) (errs ++ [(b.name, e)]) hflag]
        simp [collectErrs, herr]
      | none =>
        rw [herr] at hflag
        rw [ih acc2 (searched + 1) errs hflag]
        simp [collectErrs, herr]

/-- C4: `find_object` returns at most 50 matches and reports their exact
count; a truncated result holds exactly 50 matches and is reached the moment
the 50th match is accumulated — appending further buckets to the search space
changes nothing; a search that finishes all buckets under the cap reports
`truncated: false` with `buckets_searched` equal to the total bucket count. -/
theorem find_object_truncation (term : String) (ex : Bool)
    (bs extra : List BucketEntry) :
    (find_object term ex bs).matchList.length ≤ 50
    ∧ (find_object term ex bs).count = (find_object term ex bs).matchList.length
    ∧ ((find_object term ex bs).truncatedFlag = true →
        (find_object term ex bs).matchList.length = 50
        ∧ find_object term ex (bs ++ extra) = find_object term ex bs)
    ∧ ((find_object term ex bs).truncatedFlag = false →
        (find_object term ex bs).matchList.length < 50
        ∧ (find_object term ex bs).searched = bs.length) := by
  have hspec := scanBuckets_spec term ex bs [] 0 [] (by norm_num)
  refine ⟨hspec.1, hspec.2.1, ?_, ?_⟩
  · intro hflag
    exact ⟨hspec.2.2.1 hflag,
      scanBuckets_truncated_stable term ex bs extra [] 0 [] hflag⟩
  · intro hflag
    refine ⟨(hspec.2.2.2 hflag).1, ?_⟩
    have := (hspec.2.2.2 hflag).2
    simpa using this

/-- Witness for C4: a bucket with fifty matching objects triggers the
truncated early return and makes any extra search space irrelevant, while a
single-match search finishes untruncated having searched every bucket. -/
theorem find_object_truncation_witness :
    (find_object "report.csv" true [bucketFull]).matchList.length = 50
    ∧ find_object "report.csv" true ([bucketFull] ++ [bucketOne])
        = find_object "report.csv" true [bucketFull]
    ∧ (find_object "report.csv" true [bucketOne]).matchList.length < 50
    ∧ (find_object "report.csv" true [bucketOne]).searched = [bucketOne].length :=
  ⟨((find_object_truncation "report.csv" true [bucketFull] [bucketOne]).2.2.1 rfl).1,
   ((find_object_truncation "report.csv" true [bucketFull] [bucketOne]).2.2.1 rfl).2,
   ((find_object_truncation "report.csv" true [bucketOne] []).2.2.2 rfl).1,
   ((find_object_truncation "report.csv" true [bucketOne] []).2.2.2 rfl).2⟩

/-- C6 counterexample: a per-bucket failure collected before the truncated
early return is silently dropped — the envelope returned when `bucket-a`
fails is identical to the envelope returned when `bucket-a` succeeds, carries
an empty error list, and is the truncated shape (which has no
`buckets_with_errors` field at all). -/
theorem find_object_truncated_drops_errors :
    find_object "report.csv" true [bucketFailing, bucketFull]
      = find_object "report.csv" true [bucketHealthy, bucketFull]
    ∧ (find_object "report.csv" true [bucketFailing, bucketFull]).errList = []
    ∧ (find_object "report.csv" true [bucketFailing, bucketFull]).truncatedFlag = true := by
  exact ⟨rfl, rfl, rfl⟩

/-- C6 (amended): every failure surfaces in the returned envelope except the
two silent paths — per-event affected-entity lookup failures in the
maintenance-event query and per-bucket errors collected before a truncated
search returns.  In particular a search that completes without truncation
surfaces every per-bucket failure in `buckets_with_errors`. -/
theorem find_object_errors_surfaced (term : String) (ex : Bool)
    (bs : List BucketEntry)
    (hflag : (find_object term ex bs).truncatedFlag = false) :
    (find_object term ex bs).errList = collectErrs bs
    ∧ ∀ b ∈ bs, ∀ e, b.err = some e → (b.name, e) ∈ (find_object term ex bs).errList := by
  have herrs : (find_object term ex bs).errList = collectErrs bs := by
    show (scanBuckets term ex bs [] 0 []).errList = collectErrs bs
    rw [scanBuckets_final_errs term ex bs [] 0 [] hflag]
    rfl
  refine ⟨herrs, ?_⟩
  intro b hb e he
  rw [herrs]
  exact List.mem_filterMap.mpr ⟨b, hb, by rw [he]; rfl⟩

/-- Witness for C6: a completed search over the single failing bucket
surfaces its error pair. -/
theorem find_object_errors_surfaced_witness :
    ("bucket-a", "AccessDenied during listing")
      ∈ (find_object "report.csv" true [bucketFailing]).errList :=
  (find_object_errors_surfaced "report.csv" true [bucketFailing] rfl).2
    bucketFailing (by decide) "AccessDenied during listing" rfl

/-! ## C8: multi-source admin attribution -/

/-- Every entry the admin query emits carries the username of some input
user. -/
theorem admin_entry_username_mem (users : List AdminUserInput) :
    ∀ e ∈ (list_users_with_admin_access users).users,
      e.username ∈ users.map AdminUserInput.userName := by
  intro e he
  simp only [list_users_with_admin_access, List.mem_filterMap] at he
  obtain ⟨v, hv, hif⟩ := he
  by_cases hsrc : (adminSources v).isEmpty
  · rw [if_pos hsrc] at hif
    exact absurd hif (by simp)
  · rw [if_neg hsrc] at hif
    cases hif
    exact List.mem_map.mpr ⟨v, hv, rfl⟩

/-- Under distinct usernames, a user contributes exactly one entry when it
has at least one admin source and none otherwise. -/
theorem admin_filter_count :
    ∀ (users : List AdminUserInput) (u : AdminUserInput), u ∈ users →
      (users.map AdminUserInput.userName).Nodup →
      ((list_users_with_admin_access users).users.filter
          (fun e => e.username == u.userName)).length
        = if (adminSources u).isEmpty then 0 else 1 := by
  intro users
  induction users with
  | nil =>
    intro u hu
    exact absurd hu (by simp)
  | cons v rest ih =>
    intro u hu hnd
    rw [List.map_cons, List.nodup_cons] at hnd
    have hrestfilter : ∀ w : String, w ∉ rest.map AdminUserInput.userName →
        ((list_users_with_admin_access rest).users.filter
          (fun e => e.username == w)).length = 0 := by
      intro w hw
      rw [List.length_eq_zero, List.filter_eq_nil_iff]
      intro e he
      have := admin_entry_username_mem rest e he
      simp only [beq_iff_eq]
      intro heq
      exact hw (heq ▸ this)
    rcases List.mem_cons.mp hu with heq | hmem
    · subst heq
      by_cases hsrc : (adminSources u).isEmpty
      · rw [if_pos hsrc]
        show ((list_users_with_admin_access (u :: rest)).users.filter
          (fun e => e.username == u.userName)).length = 0
        have hstep : (list_users_with_admin_access (u :: rest)).users
            = (list_users_with_admin_access rest).users := by
          simp only [list_users_with_admin_access, List.filterMap_cons, hsrc, if_pos]
        rw [hstep]
        exact hrestfilter u.userName hnd.1
      · rw [if_neg hsrc]
        have hstep : (list_users_with_admin_access (u :: rest)).users
            = { username := u.userName, admin_source := adminSources u }
                :: (list_users_with_admin_access rest).users := by
          simp only [list_users_with_admin_access, List.filterMap_cons, hsrc, if_neg,
            Bool.false_eq_true, not_false_eq_true]
        rw [hstep, List.filter_cons]
        simp only [beq_self_eq_true, if_pos, List.length_cons]
        rw [hrestfilter u.userName hnd.1]
    · have hne : v.userName ≠ u.userName := by
        intro hcontra
        exact hnd.1 (hcontra ▸ List.mem_map.mpr ⟨u, hmem, rfl⟩)
      have htail : ((list_users_with_admin_access rest).users.filter
          (fun e => e.username == u.userName)).length
            = if (adminSources u).isEmpty then 0 else 1 :=
        ih u hmem hnd.2
      by_cases hsrc : (adminSources v).isEmpty
      · have hstep : (list_users_with_admin_access (v :: rest)).users
            = (list_users_with_admin_access rest).users := by
          simp only [list_users_with_admin_access, List.filterMap_cons, hsrc, if_pos]
        rw [hstep]
        exact htail
      · have hstep : (list_users_with_admin_access (v :: rest)).users
            = { username := v.userName, admin_source := adminSources v }
                :: (list_users_with_admin_access rest).users := by
          simp only [list_users_with_admin_access, List.filterMap_cons, hsrc, if_neg,
            Bool.false_eq_true, not_false_eq_true]
        rw [hstep, List.filter_cons]
        have hfalse : (({ username := v.userName, admin_source := adminSources v }
            : AdminEntry).username == u.userName) = false := by
          simp only [beq_eq_false_iff_ne, ne_eq]
          exact hne
        rw [hfalse]
        simpa using htail

/-- C8: under distinct usernames, a user holding AdministratorAccess through
several independent sources appears exactly once in the admin-query result —
never as separate entries — and its single entry carries the full attribution
list: `direct_attachment` when the policy is attached directly and
`group:<name>` for every group that carries it; a user with both a direct
attachment and an admin group yields the one entry with both tags. -/
theorem admin_attribution (users : List AdminUserInput) (u : AdminUserInput)
    (hu : u ∈ users) (hnd : (users.map AdminUserInput.userName).Nodup) :
    ((list_users_with_admin_access users).users.filter
        (fun e => e.username == u.userName)).length
      = (if (adminSources u).isEmpty then 0 else 1)
    ∧ (∀ e ∈ (list_users_with_admin_access users).users,
        e.username = u.userName → e.admin_source = adminSources u)
    ∧ (admin_policy_arn ∈ u.attachedPolicyArns → "direct_attachment" ∈ adminSources u)
    ∧ (∀ g ps, (g, ps) ∈ u.groups → admin_policy_arn ∈ ps →
        ("group:" ++ g) ∈ adminSources u)
    ∧ (list_users_with_admin_access [adminBoth]).users
        = [{ username := "dana", admin_source := ["direct_attachment", "group:admins"] }] := by
  refine ⟨admin_filter_count users u hu hnd, ?_, ?_, ?_, by decide⟩
  · intro e he heqn
    simp only [list_users_with_admin_access, List.mem_filterMap] at he
    obtain ⟨v, hv, hif⟩ := he
    by_cases hsrc : (adminSources v).isEmpty
    · rw [if_pos hsrc] at hif
      exact absurd hif (by simp)
    · rw [if_neg hsrc] at hif
      cases hif
      have hvu : v = u := List.inj_on_of_nodup_map hnd hv hu heqn
      rw [hvu]
  · intro hdir
    unfold adminSources
    apply List.mem_append_left
    exact List.mem_map.mpr ⟨admin_policy_arn,
      List.mem_filter.mpr ⟨hdir, by simp⟩, rfl⟩
  · intro g ps hg hps
    unfold adminSources
    apply List.mem_append_right
    exact List.mem_flatMap.mpr ⟨(g, ps), hg,
      List.mem_map.mpr ⟨admin_policy_arn, List.mem_filter.mpr ⟨hps, by simp⟩, rfl⟩⟩

/-- Witness for C8: the dual-source user appears exactly once and carries
both attribution tags. -/
theorem admin_attribution_witness :
    ((list_users_with_admin_access [adminBoth]).users.filter
        (fun e => e.username == adminBoth.userName)).length
      = (if (adminSources adminBoth).isEmpty then 0 else 1)
    ∧ "direct_attachment" ∈ adminSources adminBoth
    ∧ ("group:" ++ "admins") ∈ adminSources adminBoth :=
  ⟨(admin_attribution [adminBoth] adminBoth (by decide) (by decide)).1,
   (admin_attribution [adminBoth] adminBoth (by decide) (by decide)).2.2.1 (by decide),
   (admin_attribution [adminBoth] adminBoth (by decide) (by decide)).2.2.2.1 "admins"
     [admin_policy_arn] (by decide) (by decide)⟩

end AwsCopilot
